import Mathlib

/-!
Verification development for the resonanceX core: the Resonance Detector and
the N-Body Orbital Simulator described in spec.md.  The numeric module bodies
(`resonanceX.resonance`, `resonanceX.detector`, `resonanceX.simulator`,
`resonanceX.trappist_sim`) are not part of the available source excerpt (only
their callers in `app.py` and `test_full_pipeline.py` are), so those
components are modelled from the spec; the `app.py` call-site logic is
embedded directly from the source.  Catalog floats are modelled as exact
rationals.
-/

set_option allowUnsafeReducibility true in
attribute [semireducible] Rat.add Rat.sub Rat.mul Rat.div Rat.neg Rat.inv Rat.ofScientific

namespace ResonanceX

/-- Modelled from the spec: the integer-order bound for rational approximation
in resonance matching ("1 ≤ q ≤ p ≤ MAX_ORDER (bounded, e.g. 10)"). -/
def MAX_ORDER : Nat := 10

/-- Modelled from the spec: the candidate integer pairs (p, q) with
1 ≤ q ≤ p ≤ MAX_ORDER and gcd(p, q) = 1, searched by the detector. -/
def ratioCandidates : List (Nat × Nat) :=
  (List.range MAX_ORDER).flatMap (fun i =>
    (List.range (i + 1)).filterMap (fun j =>
      if Nat.gcd (i + 1) (j + 1) = 1 then some (i + 1, j + 1) else none))

/-- Absolute value on ℚ, written out so the kernel evaluates it directly. -/
def qabs (x : ℚ) : ℚ := if x < 0 then -x else x

/-- Modelled from the spec: the relative deviation |r − p/q| / (p/q) of a
period ratio r from the candidate fraction p/q. -/
def relDev (r : ℚ) (c : Nat × Nat) : ℚ :=
  qabs (r - (c.1 : ℚ) / (c.2 : ℚ)) / ((c.1 : ℚ) / (c.2 : ℚ))

/-- The absolute difference |p − q| of a candidate pair, used as the final
tie-break key ("closer to 1:1"). -/
def absDiff (c : Nat × Nat) : Nat := ((c.1 : Int) - (c.2 : Int)).natAbs

/-- Modelled from the spec: candidate a is strictly preferred to candidate b
for ratio r — smaller relative deviation, ties broken by smaller q, then by
smaller |p − q|. -/
def RatioLt (r : ℚ) (a b : Nat × Nat) : Prop :=
  relDev r a < relDev r b ∨
    (relDev r a = relDev r b ∧
      (a.2 < b.2 ∨ (a.2 = b.2 ∧ absDiff a < absDiff b)))

instance (r : ℚ) (a b : Nat × Nat) : Decidable (RatioLt r a b) :=
  inferInstanceAs (Decidable (relDev r a < relDev r b ∨
    (relDev r a = relDev r b ∧
      (a.2 < b.2 ∨ (a.2 = b.2 ∧ absDiff a < absDiff b)))))

/-- Keep the better of an accumulated candidate and a new one. -/
def pickBetter (r : ℚ) (acc c : Nat × Nat) : Nat × Nat :=
  if RatioLt r c acc then c else acc

/-- Modelled from the spec: the candidate pair minimizing the relative
deviation from r, with the spec's tie-breaks. -/
def bestRatio (r : ℚ) : Nat × Nat :=
  ratioCandidates.foldl (pickBetter r) (1, 1)

/-- A detected resonance match: the two periods in input order and the ratio
rendered as a "p:q" string. -/
structure RMatch where
  period_a : ℚ
  period_b : ℚ
  ratio : String
deriving DecidableEq, Repr

/-- Render a ratio pair as the "p:q" string of the detector's output. -/
def ratioStr (p q : Nat) : String := toString p ++ ":" ++ toString q

/-- Modelled from the spec: the ratio r = max(Pᵢ, Pⱼ) / min(Pᵢ, Pⱼ) of an
unordered pair of periods. -/
def pairRatio (a b : ℚ) : ℚ := max a b / min a b

/-- Modelled from the spec: test one unordered pair of periods, emitting a
match only when the best candidate's deviation is within tolerance. -/
def matchPair (tol : ℚ) (a b : ℚ) : Option RMatch :=
  if relDev (pairRatio a b) (bestRatio (pairRatio a b)) ≤ tol
  then some ⟨a, b, ratioStr (bestRatio (pairRatio a b)).1 (bestRatio (pairRatio a b)).2⟩
  else none

/-- All unordered pairs of a list, in discovery order (i < j). -/
def allPairs : List ℚ → List (ℚ × ℚ)
  | [] => []
  | x :: xs => (xs.map fun y => (x, y)) ++ allPairs xs

/-- Modelled from the spec: `detect_resonances` from `resonanceX.resonance` —
for every unordered pair of periods, search the bounded coprime candidates for
the best rational approximation of the period ratio and keep it when within
tolerance. -/
def detect_resonances (periods : List ℚ) (tol : ℚ) : List RMatch :=
  (allPairs periods).filterMap fun ab => matchPair tol ab.1 ab.2

/-- The detector's error kind: a DataError for insufficient or invalid input. -/
inductive DetectError where
  | dataError
deriving DecidableEq, Repr

/-- One catalog row as the detector sees it: a host-system identifier and an
orbital period that may be missing or malformed (modelled as `none`). -/
structure CatalogRow where
  hostname : String
  pl_orbper : Option ℚ
deriving DecidableEq, Repr

/-- The tabular detector input: whether a period column could be resolved at
all, plus the rows. -/
structure CatalogDF where
  hasPeriodColumn : Bool
  rows : List CatalogRow
deriving DecidableEq, Repr

/-- A system-tagged resonance match, as produced by
`detect_resonances_in_system`. -/
structure SysMatch where
  system : String
  period_a : ℚ
  period_b : ℚ
  ratio : String
deriving DecidableEq, Repr

/-- The distinct host-system identifiers of a table, in first-appearance
order (the group iteration order). -/
def hostsOf (df : CatalogDF) : List String :=
  df.rows.foldl (fun acc r => if r.hostname ∈ acc then acc else acc ++ [r.hostname]) []

/-- The valid (non-missing, positive) periods of one host system, in row
order; malformed or missing values are dropped. -/
def validPeriods (df : CatalogDF) (h : String) : List ℚ :=
  ((df.rows.filter fun r => r.hostname == h).filterMap fun r => r.pl_orbper).filter
    fun p => 0 < p

/-- Modelled from the spec: `detect_resonances_in_system` from
`resonanceX.detector` — fails with a DataError only when the whole input is
empty or no period column resolves; groups rows by host system, silently
skips systems with fewer than two valid periods, and runs the pairwise search
within each remaining system, tagging matches with the system identifier. -/
def detect_resonances_in_system (df : CatalogDF) (tol : ℚ) :
    Except DetectError (List SysMatch) :=
  if df.rows.isEmpty ∨ df.hasPeriodColumn = false then .error .dataError
  else .ok ((hostsOf df).flatMap fun h =>
    if 2 ≤ (validPeriods df h).length then
      (detect_resonances (validPeriods df h) tol).map
        fun m => ⟨h, m.period_a, m.period_b, m.ratio⟩
    else [])

/-- A small concrete catalog: system "Duo" has two valid periods in a 2:1
ratio, system "Solo" has only one valid period. -/
def sampleDF : CatalogDF :=
  ⟨true, [⟨"Duo", some 1⟩, ⟨"Duo", some 2⟩, ⟨"Solo", some 3⟩]⟩

/-- Modelled from the spec: the default resonance tolerance (the UI slider
default 0.05), used when the simulator consults the detector to seed
resonant-chain phases. -/
def DEFAULT_TOLERANCE : ℚ := 1/20

/-- The irrational numeric primitives (square and cube roots, trigonometry,
pi) that the floating-point code computes approximately, together with the
finiteness test modelling the IEEE NaN/Inf check the spec mandates; exact
rational arithmetic itself never produces a non-finite value, so `isFinite`
stands for that float-semantics check. -/
structure NumOps where
  sqrt : ℚ → ℚ
  cbrt : ℚ → ℚ
  cos : ℚ → ℚ
  sin : ℚ → ℚ
  pi : ℚ
  isFinite : ℚ → Bool

/-- Modelled from the spec: the documented gravitational constant, in
AU³ / (solar mass · day²). -/
def GRAV : ℚ := 2959122 / 10^10

/-- Modelled from the spec: the reference central (stellar) mass for the
general simulator, in solar masses. -/
def M_STAR : ℚ := 1

/-- Modelled from the spec: the documented softening constant added to
pairwise distances to avoid singular forces. -/
def SOFTENING : ℚ := 1/1000

/-- One simulated body: 2-D position and velocity. -/
structure Body where
  px : ℚ
  py : ℚ
  vx : ℚ
  vy : ℚ
deriving DecidableEq, Repr

/-- The simulator's error kinds: DataError for rejected input,
NumericalDivergence for a non-finite integration state. -/
inductive SimError where
  | dataError
  | numericalDivergence
deriving DecidableEq, Repr

/-- Modelled from the spec: direct pairwise Newtonian acceleration on one
body — the fixed central star plus every planet pair, each distance softened;
a body's self-term vanishes because its displacement is zero. -/
def accelOn (ops : NumOps) (mstar : ℚ) (masses : List ℚ) (bodies : List Body)
    (b : Body) : ℚ × ℚ :=
  let d2s := b.px ^ 2 + b.py ^ 2 + SOFTENING ^ 2
  let d3s := d2s * ops.sqrt d2s
  (masses.zip bodies).foldl
    (fun acc mo =>
      let dx := mo.2.px - b.px
      let dy := mo.2.py - b.py
      let d2 := dx ^ 2 + dy ^ 2 + SOFTENING ^ 2
      let d3 := d2 * ops.sqrt d2
      (acc.1 + GRAV * mo.1 * dx / d3, acc.2 + GRAV * mo.1 * dy / d3))
    (-(GRAV * mstar) * b.px / d3s, -(GRAV * mstar) * b.py / d3s)

/-- Modelled from the spec: one fixed-size kick-drift-kick leapfrog step. -/
def leapfrogStep (ops : NumOps) (mstar : ℚ) (masses : List ℚ) (dt : ℚ)
    (bodies : List Body) : List Body :=
  let kicked := bodies.map fun b =>
    let a := accelOn ops mstar masses bodies b
    { b with vx := b.vx + a.1 * (dt / 2), vy := b.vy + a.2 * (dt / 2) }
  let drifted := kicked.map fun b =>
    { b with px := b.px + b.vx * dt, py := b.py + b.vy * dt }
  drifted.map fun b =>
    let a := accelOn ops mstar masses drifted b
    { b with vx := b.vx + a.1 * (dt / 2), vy := b.vy + a.2 * (dt / 2) }

/-- Modelled from the spec: the semi-major axis from Kepler's third law,
a³ = G·M_star·P² / (4π²). -/
def keplerA (ops : NumOps) (mstar period : ℚ) : ℚ :=
  ops.cbrt (GRAV * mstar * period ^ 2 / (4 * ops.pi ^ 2))

/-- Modelled from the spec: the initial orbital phase of planet i of n —
evenly offset by default, phase-locked (aligned) for a resonant chain. -/
def initPhase (ops : NumOps) (chainLock : Bool) (n i : Nat) : ℚ :=
  if chainLock then 0 else 2 * ops.pi * (i : ℚ) / (n : ℚ)

/-- Modelled from the spec: one planet initialized on a circular orbit of its
Keplerian radius at a given phase. -/
def initBody (ops : NumOps) (mstar phase period : ℚ) : Body :=
  let a := keplerA ops mstar period
  let v := 2 * ops.pi * a / period
  ⟨a * ops.cos phase, a * ops.sin phase, -v * ops.sin phase, v * ops.cos phase⟩

/-- Modelled from the spec: initial bodies for all planets, in the order of
the input periods. -/
def initBodies (ops : NumOps) (mstar : ℚ) (periods : List ℚ)
    (chainLock : Bool) : List Body :=
  periods.enum.map fun ip =>
    initBody ops mstar (initPhase ops chainLock periods.length ip.1) ip.2

/-- Modelled from the spec: the simulator's initial state; a resonant chain
is seeded only when requested and the detector finds a matched ratio among
the input periods. -/
def simInit (ops : NumOps) (mstar : ℚ) (periods : List ℚ) (chain : Bool) :
    List Body :=
  initBodies ops mstar periods
    (chain && !(detect_resonances periods DEFAULT_TOLERANCE).isEmpty)

/-- All four scalar components of a body pass the finiteness check. -/
def bodyFinite (ops : NumOps) (b : Body) : Bool :=
  ops.isFinite b.px && ops.isFinite b.py && ops.isFinite b.vx && ops.isFinite b.vy

/-- Every body of a state passes the finiteness check. -/
def allFinite (ops : NumOps) (bodies : List Body) : Bool :=
  bodies.all (bodyFinite ops)

/-- The unchecked n-fold iterate of the leapfrog step. -/
def iterateSteps (ops : NumOps) (mstar : ℚ) (masses : List ℚ) (dt : ℚ)
    (bodies : List Body) : Nat → List Body
  | 0 => bodies
  | n + 1 => leapfrogStep ops mstar masses dt
      (iterateSteps ops mstar masses dt bodies n)

/-- Modelled from the spec: run n checked steps, collecting the state after
each step and aborting with NumericalDivergence at the first step whose
resulting state has a non-finite component. -/
def runChecked (ops : NumOps) (mstar : ℚ) (masses : List ℚ) (dt : ℚ) :
    Nat → List Body → Except SimError (List (List Body))
  | 0, _ => .ok []
  | n + 1, bodies =>
    let next := leapfrogStep ops mstar masses dt bodies
    if allFinite ops next then
      match runChecked ops mstar masses dt n next with
      | .ok rest => .ok (next :: rest)
      | .error e => .error e
    else .error .numericalDivergence

/-- One output snapshot: the simulated time and one 2-D position per planet,
in input order. -/
structure Snapshot where
  time : ℚ
  positions : List (ℚ × ℚ)
deriving DecidableEq, Repr

/-- The simulator's precondition on its inputs (spec 4.2). -/
def SimPre (periods masses : List ℚ) (duration : ℚ) (steps : Nat) : Prop :=
  periods.length = masses.length ∧ 2 ≤ periods.length ∧
    (∀ p ∈ periods, 0 < p) ∧ (∀ m ∈ masses, 0 < m) ∧ 0 < duration ∧ 0 < steps

instance (periods masses : List ℚ) (duration : ℚ) (steps : Nat) :
    Decidable (SimPre periods masses duration steps) :=
  inferInstanceAs (Decidable (_ ∧ _))

/-- Modelled from the spec: `simulate_orbits` from `resonanceX.simulator` —
reject invalid input outright; otherwise derive circular initial conditions
from Kepler's law, integrate exactly `steps` leapfrog steps of size
duration/steps, fail with NumericalDivergence on any non-finite state, and
return one snapshot per step with evenly spaced times. -/
def simulate_orbits (ops : NumOps) (periods masses : List ℚ) (duration : ℚ)
    (steps : Nat) (use_resonant_chain : Bool) : Except SimError (List Snapshot) :=
  if SimPre periods masses duration steps then
    match runChecked ops M_STAR masses (duration / steps) steps
        (simInit ops M_STAR periods use_resonant_chain) with
    | .ok states => .ok (states.enum.map fun ks =>
        ⟨((ks.1 : ℚ) + 1) * (duration / steps), ks.2.map fun b => (b.px, b.py)⟩)
    | .error e => .error e
  else .error .dataError

/-- Concrete numeric primitives used for witness evaluations: crude rational
stand-ins for the irrational functions, and an always-true finiteness test
(exact rational arithmetic never produces a non-finite value). -/
def trivOps : NumOps := ⟨fun _ => 1, fun _ => 1, fun _ => 1, fun _ => 0, 3, fun _ => true⟩

/-- One small concrete run: two equal-mass planets with periods 1 and 2 days,
duration 1 day, two integration steps. -/
def smallRun : Except SimError (List Snapshot) :=
  simulate_orbits trivOps [1, 2] [1, 1] 1 2 false

/-- The snapshots of the small concrete run. -/
def smallSnaps : List Snapshot := smallRun.toOption.getD []

/-- Modelled from the spec: literature orbital periods (days) of the seven
TRAPPIST-1 planets b through h, fixed constants internal to the component. -/
def TRAPPIST_PERIODS : List ℚ :=
  [151087/100000, 242182/100000, 404961/100000, 609962/100000,
   920669/100000, 1235294/100000, 1876729/100000]

/-- Modelled from the spec: literature masses (solar masses, via Earth-mass
conversion) of the seven TRAPPIST-1 planets, fixed constants internal to the
component. -/
def TRAPPIST_MASSES : List ℚ :=
  [1374/1000 * 3/1000000, 1308/1000 * 3/1000000, 388/1000 * 3/1000000,
   692/1000 * 3/1000000, 1039/1000 * 3/1000000, 1321/1000 * 3/1000000,
   326/1000 * 3/1000000]

/-- Modelled from the spec: the TRAPPIST-1 stellar mass (solar masses). -/
def TRAPPIST_STAR_MASS : ℚ := 898/10000

/-- Modelled from the spec: the fixed simulated duration (days), covering
multiple resonant cycles of the chain. -/
def TRAPPIST_DURATION : ℚ := 60

/-- Modelled from the spec: the dense-output resolution of the
adaptive-step solver; the spec leaves the solver internals open, so the
error-controlled stepping is modelled as a fixed fine grid. -/
def TRAPPIST_GRID_STEPS : Nat := 24

/-- A continuous-time trajectory solution: a dense grid of states over
[0, tmax], owned by the TRAPPIST-1 simulator and evaluated by
nearest-grid-point lookup at any query time. -/
structure TrajSolution where
  tmax : ℚ
  grid : List (List Body)

/-- Evaluate the positions of all bodies of a solution at a query time. -/
def TrajSolution.evalAt (sol : TrajSolution) (t : ℚ) : List (ℚ × ℚ) :=
  (sol.grid.getD
    (min (sol.grid.length - 1) (t * sol.grid.length / sol.tmax).floor.toNat)
    []).map fun b => (b.px, b.py)

/-- Modelled from the spec: `simulate_trappist1` from
`resonanceX.trappist_sim` — no external inputs, fixed literature constants,
the same gravitational model as the general simulator, a finer
(adaptivity-modelling) grid, and a continuous solution object; a non-finite
state still surfaces as NumericalDivergence. -/
def simulate_trappist1 (ops : NumOps) :
    Except SimError (TrajSolution × List ℚ × List ℚ) :=
  match runChecked ops TRAPPIST_STAR_MASS TRAPPIST_MASSES
      (TRAPPIST_DURATION / TRAPPIST_GRID_STEPS) TRAPPIST_GRID_STEPS
      (initBodies ops TRAPPIST_STAR_MASS TRAPPIST_PERIODS false) with
  | .ok states => .ok
      (⟨TRAPPIST_DURATION,
        initBodies ops TRAPPIST_STAR_MASS TRAPPIST_PERIODS false :: states⟩,
       TRAPPIST_MASSES, TRAPPIST_PERIODS)
  | .error e => .error e

/-- One catalog row as the N-body tab of `app.py` sees it (system, planet
letter, orbital period, Jupiter-unit mass; the latter two possibly missing). -/
structure AppRow where
  hostname : String
  pl_letter : String
  pl_orbper : Option ℚ
  pl_bmassj : Option ℚ
deriving DecidableEq, Repr

/-- From src/app.py line 101: the rows of the chosen system whose
`pl_orbper` is non-null. -/
def systemPlanets (rows : List AppRow) (sys : String) : List AppRow :=
  rows.filter fun r => r.hostname == sys && r.pl_orbper.isSome

/-- From src/app.py line 102: the planet letters offered by the multiselect. -/
def availablePlanets (rows : List AppRow) (sys : String) : List String :=
  (systemPlanets rows sys).map fun r => r.pl_letter

/-- From src/app.py line 118: the system rows whose letter was selected. -/
def filteredPlanets (rows : List AppRow) (sys : String)
    (selected : List String) : List AppRow :=
  (systemPlanets rows sys).filter fun r => decide (r.pl_letter ∈ selected)

/-- From src/app.py line 119: the period list handed to `simulate_orbits`
(the default 0 of `getD` never fires — `systemPlanets` keeps only non-null
periods). -/
def tab5Periods (rows : List AppRow) (sys : String)
    (selected : List String) : List ℚ :=
  (filteredPlanets rows sys selected).map fun r => r.pl_orbper.getD 0

/-- From src/app.py line 123: the Jupiter-to-solar mass conversion factor
0.0009543. -/
def JUP_TO_SOLAR : ℚ := 9543 / 10 ^ 7

/-- From src/app.py lines 122-125: the fill and fallback mass value 0.001. -/
def FALLBACK_MASS : ℚ := 1 / 1000

/-- From src/app.py lines 121-125: the mass list handed to
`simulate_orbits` — missing `pl_bmassj` filled with 0.001, then positive
values converted by 0.0009543 and non-positive values replaced with 0.001;
without a mass column, 0.001 for every planet. -/
def tab5Masses (hasMassColumn : Bool) (rows : List AppRow) (sys : String)
    (selected : List String) : List ℚ :=
  if hasMassColumn then
    ((filteredPlanets rows sys selected).map
        fun r => r.pl_bmassj.getD FALLBACK_MASS).map
      fun m => if 0 < m then m * JUP_TO_SOLAR else FALLBACK_MASS
  else
    List.replicate (tab5Periods rows sys selected).length FALLBACK_MASS

/-- Concrete rows for the tab5 witness: system "X" offers letters b and c
(row d has no period and is excluded); row c is missing its mass. -/
def appRows : List AppRow :=
  [⟨"X", "b", some 10, some 1⟩, ⟨"X", "c", some 20, none⟩,
   ⟨"X", "d", none, some 2⟩, ⟨"Y", "b", some 5, some 1⟩]

end ResonanceX

namespace ResonanceX

theorem ratioLt_irrefl (r : ℚ) (a : Nat × Nat) : ¬ RatioLt r a a := by
  simp [RatioLt]

theorem ratioLt_trans {r : ℚ} {a b c : Nat × Nat}
    (h₁ : RatioLt r a b) (h₂ : RatioLt r b c) : RatioLt r a c := by
  unfold RatioLt at h₁ h₂ ⊢
  rcases h₁ with h₁ | ⟨e₁, h₁⟩ <;> rcases h₂ with h₂ | ⟨e₂, h₂⟩
  · exact Or.inl (lt_trans h₁ h₂)
  · exact Or.inl (e₂ ▸ h₁)
  · exact Or.inl (e₁ ▸ h₂)
  · refine Or.inr ⟨e₁.trans e₂, ?_⟩
    rcases h₁ with h₁ | ⟨f₁, h₁⟩ <;> rcases h₂ with h₂ | ⟨f₂, h₂⟩
    · exact Or.inl (lt_trans h₁ h₂)
    · exact Or.inl (f₂ ▸ h₁)
    · exact Or.inl (f₁ ▸ h₂)
    · exact Or.inr ⟨f₁.trans f₂, lt_trans h₁ h₂⟩

theorem ratioLt_of_not_lt_of_lt {r : ℚ} {x y z : Nat × Nat}
    (h₁ : ¬ RatioLt r x y) (h₂ : RatioLt r x z) : RatioLt r y z := by
  unfold RatioLt at h₁ h₂ ⊢
  push_neg at h₁
  rcases h₂ with h₂ | ⟨e₂, h₂⟩
  · exact Or.inl (lt_of_le_of_lt h₁.1 h₂)
  · rcases lt_or_eq_of_le h₁.1 with hd | hd
    · exact Or.inl (hd.trans_eq e₂)
    · refine Or.inr ⟨hd.trans e₂, ?_⟩
      have h₁q := h₁.2 hd.symm
      rcases h₂ with h₂ | ⟨f₂, h₂⟩
      · exact Or.inl (lt_of_le_of_lt h₁q.1 h₂)
      · rcases lt_or_eq_of_le h₁q.1 with hq | hq
        · exact Or.inl (hq.trans_eq f₂)
        · refine Or.inr ⟨hq.trans f₂, ?_⟩
          have h₁t := h₁q.2 hq.symm
          omega

theorem ratioLt_keys_of_not_of_not {r : ℚ} {a b : Nat × Nat}
    (h₁ : ¬ RatioLt r a b) (h₂ : ¬ RatioLt r b a) :
    relDev r a = relDev r b ∧ a.2 = b.2 ∧ absDiff a = absDiff b := by
  unfold RatioLt at h₁ h₂
  push_neg at h₁ h₂
  have hd : relDev r a = relDev r b := le_antisymm h₂.1 h₁.1
  have h₁q := h₁.2 hd
  have h₂q := h₂.2 hd.symm
  have hq : a.2 = b.2 := le_antisymm h₂q.1 h₁q.1
  exact ⟨hd, hq, le_antisymm (h₂q.2 hq.symm) (h₁q.2 hq)⟩

theorem foldl_pickBetter_init (r : ℚ) :
    ∀ (l : List (Nat × Nat)) (acc : Nat × Nat),
      ¬ RatioLt r acc (l.foldl (pickBetter r) acc) := by
  intro l
  induction l with
  | nil => intro acc; exact ratioLt_irrefl r acc
  | cons c l ih =>
    intro acc
    simp only [List.foldl_cons, pickBetter]
    by_cases hc : RatioLt r c acc
    · simp only [hc, if_pos]
      intro hacc
      exact ih c (ratioLt_trans hc hacc)
    · simp only [hc, if_neg, not_false_iff]
      exact ih acc

theorem foldl_pickBetter_min (r : ℚ) :
    ∀ (l : List (Nat × Nat)) (acc x : Nat × Nat), x ∈ l →
      ¬ RatioLt r x (l.foldl (pickBetter r) acc) := by
  intro l
  induction l with
  | nil => intro acc x hx; cases hx
  | cons c l ih =>
    intro acc x hx
    rcases List.mem_cons.mp hx with rfl | hx
    · simp only [List.foldl_cons, pickBetter]
      by_cases hc : RatioLt r x acc
      · simp only [hc, if_pos]
        exact foldl_pickBetter_init r l x
      · simp only [hc, if_neg, not_false_iff]
        intro hlt
        exact foldl_pickBetter_init r l acc (ratioLt_of_not_lt_of_lt hc hlt)
    · simp only [List.foldl_cons]
      exact ih (pickBetter r acc c) x hx

theorem foldl_pickBetter_mem (r : ℚ) :
    ∀ (l : List (Nat × Nat)) (acc : Nat × Nat),
      l.foldl (pickBetter r) acc = acc ∨ l.foldl (pickBetter r) acc ∈ l := by
  intro l
  induction l with
  | nil => intro acc; exact Or.inl rfl
  | cons c l ih =>
    intro acc
    simp only [List.foldl_cons, pickBetter]
    by_cases hc : RatioLt r c acc
    · simp only [hc, if_pos]
      rcases ih c with h | h
      · exact Or.inr (List.mem_cons.mpr (Or.inl h))
      · exact Or.inr (List.mem_cons.mpr (Or.inr h))
    · simp only [hc, if_neg, not_false_iff]
      rcases ih acc with h | h
      · exact Or.inl h
      · exact Or.inr (List.mem_cons.mpr (Or.inr h))

theorem mem_ratioCandidates {c : Nat × Nat} :
    c ∈ ratioCandidates ↔
      1 ≤ c.2 ∧ c.2 ≤ c.1 ∧ c.1 ≤ MAX_ORDER ∧ Nat.gcd c.1 c.2 = 1 := by
  obtain ⟨p, q⟩ := c
  simp only [ratioCandidates, List.mem_flatMap, List.mem_filterMap, List.mem_range,
    Option.ite_none_right_eq_some, Option.some.injEq, Prod.mk.injEq, MAX_ORDER]
  constructor
  · rintro ⟨i, hi, j, hj, hg, rfl, rfl⟩
    exact ⟨by omega, by omega, by omega, hg⟩
  · rintro ⟨h1, h2, h3, hg⟩
    exact ⟨p - 1, by omega, q - 1, by omega, by
      have hp : p - 1 + 1 = p := by omega
      have hq : q - 1 + 1 = q := by omega
      rw [hp, hq]; exact ⟨hg, rfl, rfl⟩⟩

theorem ratioCandidates_inj {a b : Nat × Nat}
    (ha : a ∈ ratioCandidates) (hb : b ∈ ratioCandidates)
    (hq : a.2 = b.2) (ht : absDiff a = absDiff b) : a = b := by
  rw [mem_ratioCandidates] at ha hb
  obtain ⟨p₁, q₁⟩ := a
  obtain ⟨p₂, q₂⟩ := b
  simp only [absDiff] at ht
  simp only at ha hb hq
  have : p₁ = p₂ := by omega
  simp [this, hq]

theorem bestRatio_mem (r : ℚ) : bestRatio r ∈ ratioCandidates := by
  rcases foldl_pickBetter_mem r ratioCandidates (1, 1) with h | h
  · rw [bestRatio, h]; decide
  · exact h

theorem bestRatio_min (r : ℚ) :
    ∀ c ∈ ratioCandidates, c ≠ bestRatio r → RatioLt r (bestRatio r) c := by
  intro c hc hne
  have hnot : ¬ RatioLt r c (bestRatio r) :=
    foldl_pickBetter_min r ratioCandidates (1, 1) c hc
  by_contra hnot2
  exact hne (ratioCandidates_inj hc (bestRatio_mem r)
    (ratioLt_keys_of_not_of_not hnot hnot2).2.1
    (ratioLt_keys_of_not_of_not hnot hnot2).2.2)

end ResonanceX

namespace ResonanceX

theorem bestRatio_eq_of_min {r : ℚ} {x : Nat × Nat} (hx : x ∈ ratioCandidates)
    (hmin : ∀ c ∈ ratioCandidates, c ≠ x → RatioLt r x c) : bestRatio r = x := by
  by_contra hne
  have h1 : RatioLt r x (bestRatio r) :=
    hmin (bestRatio r) (bestRatio_mem r) hne
  exact foldl_pickBetter_min r ratioCandidates (1, 1) x hx h1

theorem bestRatio_two : bestRatio 2 = (2, 1) :=
  bestRatio_eq_of_min (by decide) (by decide)

theorem bestRatio_two_seven_one : bestRatio (271/100) = (8, 3) :=
  bestRatio_eq_of_min (by decide) (by decide)

theorem mem_detect_resonances_ratio {periods : List ℚ} {tol : ℚ} {m : RMatch}
    (hm : m ∈ detect_resonances periods tol) :
    m.ratio = ratioStr (bestRatio (pairRatio m.period_a m.period_b)).1
        (bestRatio (pairRatio m.period_a m.period_b)).2 ∧
    relDev (pairRatio m.period_a m.period_b)
        (bestRatio (pairRatio m.period_a m.period_b)) ≤ tol := by
  simp only [detect_resonances, List.mem_filterMap] at hm
  obtain ⟨ab, _, hsome⟩ := hm
  simp only [matchPair] at hsome
  by_cases hle : relDev (pairRatio ab.1 ab.2) (bestRatio (pairRatio ab.1 ab.2)) ≤ tol
  · rw [if_pos hle] at hsome
    obtain rfl := Option.some.inj hsome
    exact ⟨rfl, hle⟩
  · rw [if_neg hle] at hsome
    simp at hsome

theorem mem_ok_in_system {df : CatalogDF} {tol : ℚ} {ms : List SysMatch} {m : SysMatch}
    (hok : detect_resonances_in_system df tol = Except.ok ms) (hm : m ∈ ms) :
    ∃ h, m.system = h ∧ 2 ≤ (validPeriods df h).length ∧
      (⟨m.period_a, m.period_b, m.ratio⟩ : RMatch) ∈
        detect_resonances (validPeriods df h) tol := by
  unfold detect_resonances_in_system at hok
  by_cases hcond : df.rows.isEmpty ∨ df.hasPeriodColumn = false
  · rw [if_pos hcond] at hok; cases hok
  · rw [if_neg hcond] at hok
    obtain rfl := Except.ok.inj hok
    rw [List.mem_flatMap] at hm
    obtain ⟨h, hh, hmem⟩ := hm
    by_cases hlen : 2 ≤ (validPeriods df h).length
    · rw [if_pos hlen] at hmem
      rw [List.mem_map] at hmem
      obtain ⟨m0, hm0, rfl⟩ := hmem
      exact ⟨h, rfl, hlen, hm0⟩
    · rw [if_neg hlen] at hmem
      exact absurd hmem (List.not_mem_nil m)

theorem detect_one_two_eval :
    detect_resonances [1, 2] (1/20) = [⟨1, 2, "2:1"⟩] := by
  have hpr : pairRatio 1 2 = 2 := by
    rw [pairRatio, max_eq_right (by norm_num), min_eq_left (by norm_num), div_one]
  have hpairs : allPairs [1, 2] = [((1 : ℚ), (2 : ℚ))] := rfl
  rw [detect_resonances, hpairs, List.filterMap_cons, List.filterMap_nil]
  simp only [matchPair, hpr, bestRatio_two]
  rw [if_pos (by norm_num [relDev, qabs])]
  rfl

theorem hostsOf_sampleDF : hostsOf sampleDF = ["Duo", "Solo"] := rfl

theorem validPeriods_sampleDF_Duo : validPeriods sampleDF "Duo" = [1, 2] := rfl

theorem validPeriods_sampleDF_Solo : validPeriods sampleDF "Solo" = [3] := rfl

theorem sampleDF_result :
    detect_resonances_in_system sampleDF (1/20) =
      Except.ok [⟨"Duo", 1, 2, "2:1"⟩] := by
  rw [detect_resonances_in_system, if_neg (by decide), hostsOf_sampleDF]
  rw [List.flatMap_cons, List.flatMap_cons, List.flatMap_nil]
  rw [validPeriods_sampleDF_Duo, validPeriods_sampleDF_Solo]
  rw [if_pos (by decide), if_neg (by decide)]
  rw [detect_one_two_eval]
  rfl

/-- C2: every match produced by the detector reports the unique coprime pair
(p, q) with 1 ≤ q ≤ p ≤ MAX_ORDER minimizing the relative deviation
|r − p/q| / (p/q) of the pair's period ratio r = max/min, with ties broken
first by smaller q and then by smaller |p − q|, and is emitted only when that
minimum deviation is within tolerance. -/
theorem detect_resonances_reports_best_ratio (periods : List ℚ) (tol : ℚ) (m : RMatch)
    (hm : m ∈ detect_resonances periods tol) :
    ∃ p q : Nat,
      m.ratio = ratioStr p q ∧
      1 ≤ q ∧ q ≤ p ∧ p ≤ MAX_ORDER ∧ Nat.gcd p q = 1 ∧
      relDev (pairRatio m.period_a m.period_b) (p, q) ≤ tol ∧
      (∀ c ∈ ratioCandidates, c ≠ (p, q) →
        RatioLt (pairRatio m.period_a m.period_b) (p, q) c) := by
  obtain ⟨hratio, hle⟩ := mem_detect_resonances_ratio hm
  obtain ⟨h1, h2, h3, h4⟩ :=
    mem_ratioCandidates.mp (bestRatio_mem (pairRatio m.period_a m.period_b))
  refine ⟨(bestRatio (pairRatio m.period_a m.period_b)).1,
          (bestRatio (pairRatio m.period_a m.period_b)).2,
          hratio, h1, h2, h3, h4, ?_, ?_⟩
  · rw [Prod.mk.eta]; exact hle
  · intro c hc hne
    rw [Prod.mk.eta]
    exact bestRatio_min _ c hc (by rwa [Prod.mk.eta] at hne)

set_option maxRecDepth 8000 in
/-- Witness for C2 at the concrete input periods [1, 2], tolerance 1/20. -/
theorem detect_resonances_reports_best_ratio_witness :
    ∃ p q : Nat,
      ("2:1" : String) = ratioStr p q ∧
      1 ≤ q ∧ q ≤ p ∧ p ≤ MAX_ORDER ∧ Nat.gcd p q = 1 ∧
      relDev (pairRatio 1 2) (p, q) ≤ 1/20 ∧
      (∀ c ∈ ratioCandidates, c ≠ (p, q) → RatioLt (pairRatio 1 2) (p, q) c) :=
  detect_resonances_reports_best_ratio [1, 2] (1/20) ⟨1, 2, "2:1"⟩
    (detect_one_two_eval ▸ List.mem_singleton.mpr rfl)

/-- C3: for periods [1.0, 2.0] with tolerance 0.05 the detector returns
exactly one match, with ratio "2:1". -/
theorem detect_resonances_one_two_exact :
    detect_resonances [1, 2] (1/20) = [⟨1, 2, "2:1"⟩] := detect_one_two_eval

/-- C9: for periods [1.0, 2.71] with tolerance 0.01 the detector returns no
match — no coprime pair p:q with q ≤ p ≤ 10 approximates 2.71 within 1%. -/
theorem detect_resonances_irregular_none :
    detect_resonances [1, 271/100] (1/100) = [] := by
  have hpr : pairRatio 1 (271/100) = 271/100 := by
    rw [pairRatio, max_eq_right (by norm_num), min_eq_left (by norm_num), div_one]
  have hpairs : allPairs [1, 271/100] = [((1 : ℚ), (271/100 : ℚ))] := rfl
  rw [detect_resonances, hpairs, List.filterMap_cons, List.filterMap_nil]
  simp only [matchPair, hpr, bestRatio_two_seven_one]
  rw [if_neg (by norm_num [relDev, qabs])]

/-- C8: the detector is symmetric in its input order — the result for
[P2, P1] equals the result for [P1, P2] with the two period components
swapped in each match. -/
theorem detect_resonances_symm (p₁ p₂ tol : ℚ) :
    detect_resonances [p₂, p₁] tol =
      (detect_resonances [p₁, p₂] tol).map fun m => ⟨m.period_b, m.period_a, m.ratio⟩ := by
  have h : pairRatio p₂ p₁ = pairRatio p₁ p₂ := by
    rw [pairRatio, pairRatio, max_comm, min_comm]
  simp only [detect_resonances, allPairs, List.map_nil, List.map_cons, List.nil_append,
    List.append_nil, List.filterMap_cons, List.filterMap_nil, matchPair, h]
  by_cases hc : relDev (pairRatio p₁ p₂) (bestRatio (pairRatio p₁ p₂)) ≤ tol
  · simp [hc]
  · simp [hc]

end ResonanceX

namespace ResonanceX

/-- C4: `detect_resonances_in_system` fails with a DataError exactly when the
whole input is empty or no period column can be resolved; any individual
system group with fewer than two valid (non-missing, positive) periods raises
nothing and is simply omitted from the results, malformed or missing values
having been dropped rather than raised on. -/
theorem in_system_error_iff_and_skips (df : CatalogDF) (tol : ℚ) :
    (detect_resonances_in_system df tol = Except.error DetectError.dataError ↔
      df.rows = [] ∨ df.hasPeriodColumn = false) ∧
    (∀ h ms, (validPeriods df h).length < 2 →
      detect_resonances_in_system df tol = Except.ok ms →
      ∀ m ∈ ms, m.system ≠ h) := by
  constructor
  · unfold detect_resonances_in_system
    by_cases hcond : df.rows.isEmpty = true ∨ df.hasPeriodColumn = false
    · rw [if_pos hcond]
      refine ⟨fun _ => ?_, fun _ => rfl⟩
      rcases hcond with h | h
      · exact Or.inl (List.isEmpty_iff.mp h)
      · exact Or.inr h
    · rw [if_neg hcond]
      constructor
      · intro h
        exact absurd h (by simp)
      · intro h
        exfalso
        apply hcond
        rcases h with h | h
        · exact Or.inl (List.isEmpty_iff.mpr h)
        · exact Or.inr h
  · intro h ms hlen hok m hm heq
    obtain ⟨h₂, hsys, hlen₂, _⟩ := mem_ok_in_system hok hm
    have : h₂ = h := hsys.symm.trans heq
    rw [this] at hlen₂
    omega

set_option maxRecDepth 8000 in
/-- Witness for C4 at the concrete catalog `sampleDF`: no DataError, and the
single-valid-period system "Solo" is absent from the results. -/
theorem in_system_error_iff_and_skips_witness :
    ((detect_resonances_in_system sampleDF (1/20) = Except.error DetectError.dataError ↔
        sampleDF.rows = [] ∨ sampleDF.hasPeriodColumn = false) ∧
      ∀ m ∈ [(⟨"Duo", 1, 2, "2:1"⟩ : SysMatch)], m.system ≠ "Solo") :=
  ⟨(in_system_error_iff_and_skips sampleDF (1/20)).1,
   (in_system_error_iff_and_skips sampleDF (1/20)).2 "Solo" [⟨"Duo", 1, 2, "2:1"⟩]
     (by rw [validPeriods_sampleDF_Solo]; simp) sampleDF_result⟩

/-- C6: every element of the detector's output — from `detect_resonances` and
from `detect_resonances_in_system` alike — carries as final component a ratio
string of the form "p:q": the two integers joined by a colon separator. -/
theorem detector_output_ratio_strings :
    (∀ (periods : List ℚ) (tol : ℚ) (m : RMatch), m ∈ detect_resonances periods tol →
      ∃ p q : Nat, 1 ≤ q ∧ 1 ≤ p ∧ m.ratio = toString p ++ ":" ++ toString q) ∧
    (∀ (df : CatalogDF) (tol : ℚ) (ms : List SysMatch) (m : SysMatch),
      detect_resonances_in_system df tol = Except.ok ms → m ∈ ms →
      ∃ p q : Nat, 1 ≤ q ∧ 1 ≤ p ∧ m.ratio = toString p ++ ":" ++ toString q) := by
  constructor
  · intro periods tol m hm
    obtain ⟨hr, _⟩ := mem_detect_resonances_ratio hm
    obtain ⟨h1, h2, _, _⟩ :=
      mem_ratioCandidates.mp (bestRatio_mem (pairRatio m.period_a m.period_b))
    exact ⟨_, _, h1, le_trans h1 h2, hr⟩
  · intro df tol ms m hok hm
    obtain ⟨h, _, _, hmem⟩ := mem_ok_in_system hok hm
    obtain ⟨hr, _⟩ := mem_detect_resonances_ratio hmem
    obtain ⟨h1, h2, _, _⟩ := mem_ratioCandidates.mp (bestRatio_mem _)
    exact ⟨_, _, h1, le_trans h1 h2, hr⟩

set_option maxRecDepth 8000 in
/-- Witness for C6 on concrete runs of both detector entry points. -/
theorem detector_output_ratio_strings_witness :
    (∃ p q : Nat, 1 ≤ q ∧ 1 ≤ p ∧
      (RMatch.mk 1 2 "2:1").ratio = toString p ++ ":" ++ toString q) ∧
    (∃ p q : Nat, 1 ≤ q ∧ 1 ≤ p ∧
      (SysMatch.mk "Duo" 1 2 "2:1").ratio = toString p ++ ":" ++ toString q) :=
  ⟨detector_output_ratio_strings.1 [1, 2] (1/20) ⟨1, 2, "2:1"⟩
      (detect_one_two_eval ▸ List.mem_singleton.mpr rfl),
   detector_output_ratio_strings.2 sampleDF (1/20) [⟨"Duo", 1, 2, "2:1"⟩]
      ⟨"Duo", 1, 2, "2:1"⟩ sampleDF_result (List.mem_singleton.mpr rfl)⟩

end ResonanceX

namespace ResonanceX

theorem leapfrogStep_length (ops : NumOps) (mstar : ℚ) (masses : List ℚ)
    (dt : ℚ) (bodies : List Body) :
    (leapfrogStep ops mstar masses dt bodies).length = bodies.length := by
  simp [leapfrogStep]

theorem initBodies_length (ops : NumOps) (mstar : ℚ) (periods : List ℚ)
    (chainLock : Bool) :
    (initBodies ops mstar periods chainLock).length = periods.length := by
  simp [initBodies, List.enum_eq_enumFrom, List.enumFrom_length]

theorem simInit_length (ops : NumOps) (mstar : ℚ) (periods : List ℚ)
    (chain : Bool) :
    (simInit ops mstar periods chain).length = periods.length :=
  initBodies_length ops mstar periods _

theorem runChecked_ok_length (ops : NumOps) (mstar : ℚ) (masses : List ℚ) (dt : ℚ) :
    ∀ (n : Nat) (bodies : List Body) (states : List (List Body)),
      runChecked ops mstar masses dt n bodies = .ok states → states.length = n := by
  intro n
  induction n with
  | zero =>
    intro bodies states h
    obtain rfl := Except.ok.inj h.symm
    rfl
  | succ n ih =>
    intro bodies states h
    rw [runChecked] at h
    by_cases hf : allFinite ops (leapfrogStep ops mstar masses dt bodies) = true
    · rw [if_pos hf] at h
      cases hr : runChecked ops mstar masses dt n (leapfrogStep ops mstar masses dt bodies) with
      | ok rest =>
        rw [hr] at h
        obtain rfl := Except.ok.inj h.symm
        simp [ih _ rest hr]
      | error e =>
        rw [hr] at h
        cases h
    · rw [if_neg hf] at h
      cases h

theorem runChecked_ok_statelen (ops : NumOps) (mstar : ℚ) (masses : List ℚ) (dt : ℚ) :
    ∀ (n : Nat) (bodies : List Body) (states : List (List Body)),
      runChecked ops mstar masses dt n bodies = .ok states →
      ∀ st ∈ states, st.length = bodies.length := by
  intro n
  induction n with
  | zero =>
    intro bodies states h st hst
    obtain rfl := Except.ok.inj h.symm
    cases hst
  | succ n ih =>
    intro bodies states h st hst
    rw [runChecked] at h
    by_cases hf : allFinite ops (leapfrogStep ops mstar masses dt bodies) = true
    · rw [if_pos hf] at h
      cases hr : runChecked ops mstar masses dt n (leapfrogStep ops mstar masses dt bodies) with
      | ok rest =>
        rw [hr] at h
        obtain rfl := Except.ok.inj h.symm
        rcases List.mem_cons.mp hst with rfl | hst
        · exact leapfrogStep_length ops mstar masses dt bodies
        · exact (ih _ rest hr st hst).trans (leapfrogStep_length ops mstar masses dt bodies)
      | error e =>
        rw [hr] at h
        cases h
    · rw [if_neg hf] at h
      cases h

theorem runChecked_ok_finite (ops : NumOps) (mstar : ℚ) (masses : List ℚ) (dt : ℚ) :
    ∀ (n : Nat) (bodies : List Body) (states : List (List Body)),
      runChecked ops mstar masses dt n bodies = .ok states →
      ∀ st ∈ states, allFinite ops st = true := by
  intro n
  induction n with
  | zero =>
    intro bodies states h st hst
    obtain rfl := Except.ok.inj h.symm
    cases hst
  | succ n ih =>
    intro bodies states h st hst
    rw [runChecked] at h
    by_cases hf : allFinite ops (leapfrogStep ops mstar masses dt bodies) = true
    · rw [if_pos hf] at h
      cases hr : runChecked ops mstar masses dt n (leapfrogStep ops mstar masses dt bodies) with
      | ok rest =>
        rw [hr] at h
        obtain rfl := Except.ok.inj h.symm
        rcases List.mem_cons.mp hst with rfl | hst
        · exact hf
        · exact ih _ rest hr st hst
      | error e =>
        rw [hr] at h
        cases h
    · rw [if_neg hf] at h
      cases h

theorem iterateSteps_succ_comm (ops : NumOps) (mstar : ℚ) (masses : List ℚ)
    (dt : ℚ) (bodies : List Body) :
    ∀ n : Nat, iterateSteps ops mstar masses dt bodies (n + 1) =
      iterateSteps ops mstar masses dt (leapfrogStep ops mstar masses dt bodies) n := by
  intro n
  induction n with
  | zero => rfl
  | succ n ih =>
    show leapfrogStep ops mstar masses dt (iterateSteps ops mstar masses dt bodies (n + 1)) = _
    rw [ih]
    rfl

theorem runChecked_error_eq (ops : NumOps) (mstar : ℚ) (masses : List ℚ) (dt : ℚ) :
    ∀ (n : Nat) (bodies : List Body) (e : SimError),
      runChecked ops mstar masses dt n bodies = .error e →
      e = .numericalDivergence := by
  intro n
  induction n with
  | zero => intro bodies e h; cases h
  | succ n ih =>
    intro bodies e h
    rw [runChecked] at h
    by_cases hf : allFinite ops (leapfrogStep ops mstar masses dt bodies) = true
    · rw [if_pos hf] at h
      cases hr : runChecked ops mstar masses dt n (leapfrogStep ops mstar masses dt bodies) with
      | ok rest => rw [hr] at h; cases h
      | error e2 =>
        rw [hr] at h
        obtain rfl := Except.error.inj h
        exact ih _ _ hr
    · rw [if_neg hf] at h
      exact (Except.error.inj h).symm

theorem runChecked_error_iff (ops : NumOps) (mstar : ℚ) (masses : List ℚ) (dt : ℚ) :
    ∀ (n : Nat) (bodies : List Body),
      runChecked ops mstar masses dt n bodies = .error .numericalDivergence ↔
      ∃ k, k < n ∧
        allFinite ops (iterateSteps ops mstar masses dt bodies (k + 1)) = false := by
  intro n
  induction n with
  | zero =>
    intro bodies
    constructor
    · intro h; cases h
    · rintro ⟨k, hk, _⟩; omega
  | succ n ih =>
    intro bodies
    rw [runChecked]
    by_cases hf : allFinite ops (leapfrogStep ops mstar masses dt bodies) = true
    · rw [if_pos hf]
      cases hr : runChecked ops mstar masses dt n (leapfrogStep ops mstar masses dt bodies) with
      | ok rest =>
        simp only [hr]
        constructor
        · intro h; cases h
        · rintro ⟨k, hk, hfk⟩
          exfalso
          cases k with
          | zero =>
            rw [show iterateSteps ops mstar masses dt bodies 1 =
                leapfrogStep ops mstar masses dt bodies from rfl] at hfk
            rw [hf] at hfk
            cases hfk
          | succ k =>
            have hmem : runChecked ops mstar masses dt n
                (leapfrogStep ops mstar masses dt bodies) = .error .numericalDivergence := by
              rw [ih]
              refine ⟨k, by omega, ?_⟩
              rw [← iterateSteps_succ_comm]
              exact hfk
            rw [hr] at hmem
            cases hmem
      | error e =>
        simp only [hr]
        have he : e = SimError.numericalDivergence :=
          runChecked_error_eq ops mstar masses dt n _ e hr
        subst he
        constructor
        · intro _
          rw [ih] at hr
          obtain ⟨k, hk, hfk⟩ := hr
          refine ⟨k + 1, by omega, ?_⟩
          rw [iterateSteps_succ_comm]
          exact hfk
        · intro _; rfl
    · rw [if_neg hf]
      constructor
      · intro _
        refine ⟨0, by omega, ?_⟩
        rw [show iterateSteps ops mstar masses dt bodies 1 =
            leapfrogStep ops mstar masses dt bodies from rfl]
        simpa using hf
      · intro _; rfl

end ResonanceX

namespace ResonanceX

/-- C1: under the preconditions, a successful `simulate_orbits` run returns
exactly `steps` snapshots whose times are evenly spaced by duration/steps,
strictly increasing, and reach the requested duration, each snapshot holding
exactly one position per input planet (indexed in input order). -/
theorem simulate_orbits_snapshot_shape (ops : NumOps) (periods masses : List ℚ)
    (duration : ℚ) (steps : Nat) (chain : Bool) (snaps : List Snapshot)
    (hpre : SimPre periods masses duration steps)
    (hok : simulate_orbits ops periods masses duration steps chain = .ok snaps) :
    snaps.length = steps ∧
    (∀ i (hi : i < snaps.length),
      (snaps.get ⟨i, hi⟩).time = ((i : ℚ) + 1) * (duration / steps)) ∧
    (∀ i j (hi : i < snaps.length) (hj : j < snaps.length), i < j →
      (snaps.get ⟨i, hi⟩).time < (snaps.get ⟨j, hj⟩).time) ∧
    (∀ i (hi : i < snaps.length) (hj : i + 1 < snaps.length),
      (snaps.get ⟨i + 1, hj⟩).time - (snaps.get ⟨i, hi⟩).time = duration / steps) ∧
    (∀ hne : snaps ≠ [], (snaps.getLast hne).time = duration) ∧
    (∀ i (hi : i < snaps.length),
      (snaps.get ⟨i, hi⟩).positions.length = periods.length) := by
  rw [simulate_orbits, if_pos hpre] at hok
  obtain ⟨_, _, _, _, hd, hs⟩ := hpre
  cases hr : runChecked ops M_STAR masses (duration / steps) steps
      (simInit ops M_STAR periods chain) with
  | error e => rw [hr] at hok; cases hok
  | ok states =>
    rw [hr] at hok
    obtain rfl := Except.ok.inj hok
    have hslen := runChecked_ok_length ops M_STAR masses (duration / steps) steps _ states hr
    have hstlen := runChecked_ok_statelen ops M_STAR masses (duration / steps) steps _ states hr
    have hs0 : ((steps : ℚ)) ≠ 0 := by
      exact_mod_cast Nat.pos_iff_ne_zero.mp hs
    have hlength : (states.enum.map fun ks =>
        Snapshot.mk (((ks.1 : ℚ) + 1) * (duration / steps))
          (ks.2.map fun b => (b.px, b.py))).length = steps := by
      simp [List.enum_eq_enumFrom, List.enumFrom_length, hslen]
    have htimeE : ∀ i (hi : i < (states.enum.map fun ks =>
        Snapshot.mk (((ks.1 : ℚ) + 1) * (duration / steps))
          (ks.2.map fun b => (b.px, b.py))).length),
        ((states.enum.map fun ks =>
          Snapshot.mk (((ks.1 : ℚ) + 1) * (duration / steps))
            (ks.2.map fun b => (b.px, b.py)))[i]).time =
          ((i : ℚ) + 1) * (duration / steps) := by
      intro i hi
      simp [List.getElem_map, List.enum_eq_enumFrom, List.getElem_enumFrom]
    have htime : ∀ i (hi : i < (states.enum.map fun ks =>
        Snapshot.mk (((ks.1 : ℚ) + 1) * (duration / steps))
          (ks.2.map fun b => (b.px, b.py))).length),
        ((states.enum.map fun ks =>
          Snapshot.mk (((ks.1 : ℚ) + 1) * (duration / steps))
            (ks.2.map fun b => (b.px, b.py))).get ⟨i, hi⟩).time =
          ((i : ℚ) + 1) * (duration / steps) := by
      intro i hi
      rw [List.get_eq_getElem]
      exact htimeE i hi
    have hdt : 0 < duration / steps :=
      div_pos hd (by exact_mod_cast hs)
    refine ⟨hlength, htime, ?_, ?_, ?_, ?_⟩
    · intro i j hi hj hij
      rw [htime i hi, htime j hj]
      have hcast : (i : ℚ) < (j : ℚ) := by exact_mod_cast hij
      have : (i : ℚ) + 1 < (j : ℚ) + 1 := by linarith
      exact mul_lt_mul_of_pos_right this hdt
    · intro i hi hj
      rw [htime i hi, htime (i + 1) hj]
      push_cast
      ring
    · intro hne
      rw [List.getLast_eq_getElem _ hne]
      have hlt : (states.enum.map fun ks =>
          Snapshot.mk (((ks.1 : ℚ) + 1) * (duration / steps))
            (ks.2.map fun b => (b.px, b.py))).length - 1 <
          (states.enum.map fun ks =>
            Snapshot.mk (((ks.1 : ℚ) + 1) * (duration / steps))
              (ks.2.map fun b => (b.px, b.py))).length := by
        rw [hlength]; omega
      rw [htimeE _ hlt, hlength]
      have hcast : ((steps - 1 : Nat) : ℚ) + 1 = (steps : ℚ) := by
        have h1 : 1 ≤ steps := hs
        push_cast [Nat.cast_sub h1]
        ring
      rw [hcast, mul_comm, div_mul_cancel₀ _ hs0]
    · intro i hi
      have hi2 : i < states.length := by
        simpa [List.enum_eq_enumFrom, List.enumFrom_length] using hi
      rw [List.get_eq_getElem]
      simp only [List.getElem_map, List.enum_eq_enumFrom, List.getElem_enumFrom]
      rw [List.length_map]
      exact (hstlen _ (List.getElem_mem _)).trans (simInit_length ops M_STAR periods _)

end ResonanceX

namespace ResonanceX

/-- C5: under the preconditions, `simulate_orbits` fails with
NumericalDivergence exactly when some integration step produces a state with
a non-finite component, and a successful run is never partial — it has all
`steps` snapshots and only finite coordinates. -/
theorem simulate_orbits_divergence_iff (ops : NumOps) (periods masses : List ℚ)
    (duration : ℚ) (steps : Nat) (chain : Bool)
    (hpre : SimPre periods masses duration steps) :
    (simulate_orbits ops periods masses duration steps chain =
        .error .numericalDivergence ↔
      ∃ k, k < steps ∧ allFinite ops (iterateSteps ops M_STAR masses
        (duration / steps) (simInit ops M_STAR periods chain) (k + 1)) = false) ∧
    (∀ snaps, simulate_orbits ops periods masses duration steps chain = .ok snaps →
      snaps.length = steps ∧
      ∀ s ∈ snaps, ∀ xy ∈ s.positions,
        ops.isFinite xy.1 = true ∧ ops.isFinite xy.2 = true) := by
  constructor
  · rw [simulate_orbits, if_pos hpre]
    cases hr : runChecked ops M_STAR masses (duration / steps) steps
        (simInit ops M_STAR periods chain) with
    | ok states =>
      constructor
      · intro h; cases h
      · intro hex
        have hcontra := (runChecked_error_iff ops M_STAR masses (duration / steps)
          steps (simInit ops M_STAR periods chain)).mpr hex
        rw [hr] at hcontra
        cases hcontra
    | error e =>
      have he := runChecked_error_eq ops M_STAR masses (duration / steps) steps _ e hr
      subst he
      constructor
      · intro _
        exact (runChecked_error_iff ops M_STAR masses (duration / steps) steps
          (simInit ops M_STAR periods chain)).mp hr
      · intro _; rfl
  · intro snaps hok
    rw [simulate_orbits, if_pos hpre] at hok
    cases hr : runChecked ops M_STAR masses (duration / steps) steps
        (simInit ops M_STAR periods chain) with
    | error e => rw [hr] at hok; cases hok
    | ok states =>
      rw [hr] at hok
      obtain rfl := Except.ok.inj hok
      refine ⟨by
        simp [List.enum_eq_enumFrom, List.enumFrom_length,
          runChecked_ok_length ops M_STAR masses (duration / steps) steps _ states hr], ?_⟩
      intro s hs xy hxy
      rw [List.mem_map] at hs
      obtain ⟨ks, hks, rfl⟩ := hs
      simp only at hxy
      rw [List.mem_map] at hxy
      obtain ⟨b, hb, rfl⟩ := hxy
      have hks2 : ks.2 ∈ states :=
        List.get?_mem (List.mem_enum_iff_get?.mp hks)
      have hfin := runChecked_ok_finite ops M_STAR masses (duration / steps)
        steps _ states hr ks.2 hks2
      rw [allFinite, List.all_eq_true] at hfin
      have hbf := hfin b hb
      rw [bodyFinite] at hbf
      simp only [Bool.and_eq_true] at hbf
      exact ⟨hbf.1.1.1, hbf.1.1.2⟩

theorem runChecked_ok_of_finite (ops : NumOps) (mstar : ℚ) (masses : List ℚ)
    (dt : ℚ) (hfin : ∀ x, ops.isFinite x = true) :
    ∀ (n : Nat) (bodies : List Body),
      ∃ states, runChecked ops mstar masses dt n bodies = .ok states := by
  intro n
  induction n with
  | zero => intro bodies; exact ⟨[], rfl⟩
  | succ n ih =>
    intro bodies
    obtain ⟨states, hst⟩ := ih (leapfrogStep ops mstar masses dt bodies)
    refine ⟨leapfrogStep ops mstar masses dt bodies :: states, ?_⟩
    rw [runChecked]
    have hf : allFinite ops (leapfrogStep ops mstar masses dt bodies) = true := by
      simp [allFinite, bodyFinite, hfin, List.all_eq_true]
    rw [if_pos hf, hst]

/-- C7: `simulate_trappist1` needs no caller input beyond the numeric
primitives, and (the integration state staying finite, as exact arithmetic
guarantees) always returns a solution together with the fixed 7-element
masses and periods arrays, the solution being evaluable at every time of
[0, tmax] with one position per planet and no NumericalDivergence. -/
theorem simulate_trappist1_shape (ops : NumOps)
    (hfin : ∀ x, ops.isFinite x = true) :
    ∃ sol : TrajSolution,
      simulate_trappist1 ops = .ok (sol, TRAPPIST_MASSES, TRAPPIST_PERIODS) ∧
      TRAPPIST_MASSES.length = 7 ∧ TRAPPIST_PERIODS.length = 7 ∧
      sol.tmax = TRAPPIST_DURATION ∧
      ∀ t : ℚ, 0 ≤ t → t ≤ sol.tmax → (sol.evalAt t).length = 7 := by
  obtain ⟨states, hst⟩ := runChecked_ok_of_finite ops TRAPPIST_STAR_MASS
    TRAPPIST_MASSES (TRAPPIST_DURATION / TRAPPIST_GRID_STEPS) hfin
    TRAPPIST_GRID_STEPS (initBodies ops TRAPPIST_STAR_MASS TRAPPIST_PERIODS false)
  refine ⟨⟨TRAPPIST_DURATION,
    initBodies ops TRAPPIST_STAR_MASS TRAPPIST_PERIODS false :: states⟩,
    ?_, rfl, rfl, rfl, ?_⟩
  · rw [simulate_trappist1, hst]
  · intro t ht0 ht1
    rw [TrajSolution.evalAt, List.length_map]
    have hlen : (initBodies ops TRAPPIST_STAR_MASS TRAPPIST_PERIODS false ::
        states).length = states.length + 1 := by simp
    have hk : min ((initBodies ops TRAPPIST_STAR_MASS TRAPPIST_PERIODS false ::
          states).length - 1)
        (t * (initBodies ops TRAPPIST_STAR_MASS TRAPPIST_PERIODS false ::
          states).length / TRAPPIST_DURATION).floor.toNat <
        (initBodies ops TRAPPIST_STAR_MASS TRAPPIST_PERIODS false ::
          states).length := by
      rw [hlen]
      have := Nat.min_le_left (states.length + 1 - 1)
        (t * ((initBodies ops TRAPPIST_STAR_MASS TRAPPIST_PERIODS false ::
          states).length : ℚ) / TRAPPIST_DURATION).floor.toNat
      omega
    rw [List.getD_eq_getElem?_getD, List.getElem?_eq_getElem hk, Option.getD_some]
    have hmem := List.getElem_mem hk
    rcases List.mem_cons.mp hmem with h | h
    · rw [h, initBodies_length]
      rfl
    · rw [runChecked_ok_statelen ops TRAPPIST_STAR_MASS TRAPPIST_MASSES
        (TRAPPIST_DURATION / TRAPPIST_GRID_STEPS) TRAPPIST_GRID_STEPS _ states hst _ h,
        initBodies_length]
      rfl

/-- Witness for C7: the concrete numeric primitives `trivOps` keep every
value finite, so the fixed-constant simulation succeeds with 7-element
arrays. -/
theorem simulate_trappist1_shape_witness :
    ∃ sol : TrajSolution,
      simulate_trappist1 trivOps = .ok (sol, TRAPPIST_MASSES, TRAPPIST_PERIODS) ∧
      TRAPPIST_MASSES.length = 7 ∧ TRAPPIST_PERIODS.length = 7 ∧
      sol.tmax = TRAPPIST_DURATION ∧
      ∀ t : ℚ, 0 ≤ t → t ≤ sol.tmax → (sol.evalAt t).length = 7 :=
  simulate_trappist1_shape trivOps (fun _ => rfl)

end ResonanceX

namespace ResonanceX

set_option maxRecDepth 8000 in
/-- Witness for C1 on the small concrete run (two planets, duration 1 day,
two steps). -/
theorem simulate_orbits_snapshot_shape_witness :
    smallSnaps.length = 2 ∧
    (∀ i (hi : i < smallSnaps.length),
      (smallSnaps.get ⟨i, hi⟩).time = ((i : ℚ) + 1) * ((1 : ℚ) / ((2 : Nat) : ℚ))) ∧
    (∀ i j (hi : i < smallSnaps.length) (hj : j < smallSnaps.length), i < j →
      (smallSnaps.get ⟨i, hi⟩).time < (smallSnaps.get ⟨j, hj⟩).time) ∧
    (∀ i (hi : i < smallSnaps.length) (hj : i + 1 < smallSnaps.length),
      (smallSnaps.get ⟨i + 1, hj⟩).time - (smallSnaps.get ⟨i, hi⟩).time =
        (1 : ℚ) / ((2 : Nat) : ℚ)) ∧
    (∀ hne : smallSnaps ≠ [], (smallSnaps.getLast hne).time = 1) ∧
    (∀ i (hi : i < smallSnaps.length),
      (smallSnaps.get ⟨i, hi⟩).positions.length = ([1, 2] : List ℚ).length) :=
  simulate_orbits_snapshot_shape trivOps [1, 2] [1, 1] 1 2 false smallSnaps
    (by decide) (by rfl)

set_option maxRecDepth 8000 in
/-- Witness for C5 on the small concrete run. -/
theorem simulate_orbits_divergence_iff_witness :
    ((simulate_orbits trivOps [1, 2] [1, 1] 1 2 false =
        .error .numericalDivergence ↔
      ∃ k, k < 2 ∧ allFinite trivOps (iterateSteps trivOps M_STAR [1, 1]
        ((1 : ℚ) / ((2 : Nat) : ℚ)) (simInit trivOps M_STAR [1, 2] false)
        (k + 1)) = false) ∧
    (∀ snaps, simulate_orbits trivOps [1, 2] [1, 1] 1 2 false = .ok snaps →
      snaps.length = 2 ∧
      ∀ s ∈ snaps, ∀ xy ∈ s.positions,
        trivOps.isFinite xy.1 = true ∧ trivOps.isFinite xy.2 = true)) :=
  simulate_orbits_divergence_iff trivOps [1, 2] [1, 1] 1 2 false (by decide)

end ResonanceX

namespace ResonanceX

theorem countP_or_disjoint {α : Type} (p q : α → Bool) :
    ∀ l : List α, (∀ a ∈ l, ¬(p a = true ∧ q a = true)) →
      l.countP (fun a => p a || q a) = l.countP p + l.countP q := by
  intro l
  induction l with
  | nil => intro _; simp
  | cons x l ih =>
    intro hdisj
    have hd := hdisj x (List.mem_cons_self x l)
    have ih2 := ih fun a ha => hdisj a (List.mem_cons_of_mem x ha)
    by_cases hp : p x = true
    · have hq : q x = false := by
        cases hqv : q x
        · rfl
        · exact absurd ⟨hp, hqv⟩ hd
      simp only [List.countP_cons, hp, hq, ih2]
      simp only [Bool.or_true, Bool.true_or, if_pos, if_neg]
      simp [hp]
      omega
    · rw [Bool.not_eq_true] at hp
      cases hqv : q x <;> simp only [List.countP_cons, hp, hqv, ih2] <;> simp <;> omega

theorem nodup_letters_le_filter_length (sp : List AppRow) :
    ∀ sel : List String, sel.Nodup →
      (∀ l ∈ sel, ∃ r ∈ sp, r.pl_letter = l) →
      sel.length ≤ (sp.filter fun r => decide (r.pl_letter ∈ sel)).length := by
  intro sel
  induction sel with
  | nil => intro _ _; simp
  | cons a sel ih =>
    intro hnd hex
    rw [← List.countP_eq_length_filter]
    have hcong : sp.countP (fun r => decide (r.pl_letter ∈ a :: sel)) =
        sp.countP (fun r => (r.pl_letter == a) || decide (r.pl_letter ∈ sel)) := by
      apply List.countP_congr
      intro r _
      by_cases h1 : r.pl_letter = a <;> by_cases h2 : r.pl_letter ∈ sel <;>
        simp [h1, h2]
    rw [hcong, countP_or_disjoint]
    · have h1 : 0 < sp.countP fun r => r.pl_letter == a := by
        rw [List.countP_pos_iff]
        obtain ⟨r, hr, hra⟩ := hex a (List.mem_cons_self a sel)
        exact ⟨r, hr, by simp [hra]⟩
      have h2 := ih (List.nodup_cons.mp hnd).2
        (fun l hl => hex l (List.mem_cons_of_mem a hl))
      rw [← List.countP_eq_length_filter] at h2
      simp only [List.length_cons]
      omega
    · intro r _
      rintro ⟨hpa, hq⟩
      rw [beq_iff_eq] at hpa
      rw [decide_eq_true_eq] at hq
      exact (List.nodup_cons.mp hnd).1 (hpa ▸ hq)

end ResonanceX

namespace ResonanceX

/-- C10: in the N-body tab of `app.py`, every `simulate_orbits` call
satisfies the simulator's preconditions by construction: with the multiselect
guarantees (distinct selected letters, drawn from the offered letters, at
least two of them), the period and mass lists have equal length ≥ 2, every
period comes from a row whose `pl_orbper` is non-null, and every mass is
strictly positive — missing `pl_bmassj` filled with 0.001, positive masses
converted by 0.0009543, non-positive masses replaced by 0.001. -/
theorem tab5_call_satisfies_preconditions (hasMass : Bool) (rows : List AppRow)
    (sys : String) (selected : List String)
    (hnd : selected.Nodup)
    (hsub : ∀ l ∈ selected, l ∈ availablePlanets rows sys)
    (h2 : 2 ≤ selected.length) :
    (tab5Periods rows sys selected).length =
      (tab5Masses hasMass rows sys selected).length ∧
    2 ≤ (tab5Periods rows sys selected).length ∧
    (∀ r ∈ filteredPlanets rows sys selected, r.pl_orbper.isSome = true) ∧
    (∀ m ∈ tab5Masses hasMass rows sys selected, 0 < m) := by
  have hflen : selected.length ≤ (filteredPlanets rows sys selected).length := by
    apply nodup_letters_le_filter_length (systemPlanets rows sys) selected hnd
    intro l hl
    have hmem := hsub l hl
    rw [availablePlanets, List.mem_map] at hmem
    obtain ⟨r, hr, hrl⟩ := hmem
    exact ⟨r, hr, hrl⟩
  refine ⟨?_, ?_, ?_, ?_⟩
  · cases hasMass
    · simp [tab5Masses, tab5Periods]
    · simp [tab5Masses, tab5Periods]
  · rw [tab5Periods, List.length_map]
    omega
  · intro r hr
    rw [filteredPlanets, List.mem_filter] at hr
    have hsp := hr.1
    rw [systemPlanets, List.mem_filter] at hsp
    have hand := hsp.2
    rw [Bool.and_eq_true] at hand
    exact hand.2
  · intro m hm
    cases hasMass with
    | false =>
      simp only [tab5Masses, Bool.false_eq_true, if_neg, if_false] at hm
      have := List.eq_of_mem_replicate hm
      subst this
      norm_num [FALLBACK_MASS]
    | true =>
      simp only [tab5Masses, if_pos, if_true] at hm
      rw [List.mem_map] at hm
      obtain ⟨m0, _, rfl⟩ := hm
      by_cases hpos : 0 < m0
      · rw [if_pos hpos]
        have hj : (0 : ℚ) < JUP_TO_SOLAR := by norm_num [JUP_TO_SOLAR]
        exact mul_pos hpos hj
      · rw [if_neg hpos]
        norm_num [FALLBACK_MASS]

/-- Witness for C10 at a concrete catalog: system "X" offers letters b and c
and both are selected. -/
theorem tab5_call_satisfies_preconditions_witness :
    (tab5Periods appRows "X" ["b", "c"]).length =
      (tab5Masses true appRows "X" ["b", "c"]).length ∧
    2 ≤ (tab5Periods appRows "X" ["b", "c"]).length ∧
    (∀ r ∈ filteredPlanets appRows "X" ["b", "c"], r.pl_orbper.isSome = true) ∧
    (∀ m ∈ tab5Masses true appRows "X" ["b", "c"], 0 < m) :=
  tab5_call_satisfies_preconditions true appRows "X" ["b", "c"]
    (by decide) (by decide) (by decide)

end ResonanceX
